import Mathlib

/-!
Shallow embedding of the GWAS workshop notebook `2_GWAS.ipynb`
(Gregor-Mendel-Institute/gwas_workshop).

The notebook loads a phenotype table (accession id, trait value), a genotype
HDF5 file (accession ids, SNP positions with chromosome-region metadata, and a
binary SNP × accession matrix) and a kinship HDF5 file (accession ids, square
kinship matrix).  It aligns the three datasets to a common accession set,
filters SNPs by minor allele frequency, runs the external LIMIX `scan` twice
(with and without the kinship matrix), and writes two result CSVs.

Modelling choices:
* accession identifiers are `Nat` (the notebook uses UTF8-encoded integer ids);
* trait values, kinship entries, p-values and effect sizes are `ℚ` (the code's
  floats play no arithmetic role in any claim checked here; the MAF arithmetic
  `MAC / G.shape[1]` is exact rational arithmetic on integer counts);
* numpy integer vectors are `List Int` (no overflow is reachable at the data
  sizes involved, so `Int` is the faithful value semantics);
* pandas / numpy fancy indexing is total in the notebook (every key / index
  that is looked up is present by construction); out-of-range lookups are
  modelled with `.get?`/`filterMap` or `.getD`.
-/

namespace GWAS

/-- pandas `df.loc[keys]` on a two-column phenotype table: one row per key,
each key looked up in the table (first row whose index equals the key).
Every key the notebook passes to `.loc` is present in the table, where this
agrees with pandas (pandas would raise a `KeyError` on a missing key). -/
def loc (pheno : List (Nat × Rat)) (ks : List Nat) : List (Nat × Rat) :=
  ks.filterMap (fun k => (pheno.find? (fun p => p.1 == k)).map (fun p => (k, p.2)))

/-- Section 3a: `acn_genotyped = [acn for acn in pheno.index if acn in geno_hdf['accessions'][:]]`. -/
def acn_genotyped (pheno : List (Nat × Rat)) (genoAcc : List Nat) : List Nat :=
  (pheno.map Prod.fst).filter (fun a => genoAcc.contains a)

/-- Section 3a: `pheno = pheno.loc[acn_genotyped]`. -/
def pheno_geno (pheno : List (Nat × Rat)) (genoAcc : List Nat) : List (Nat × Rat) :=
  loc pheno (acn_genotyped pheno genoAcc)

/-- Section 3a:
`acn_indices = [np.where(geno_hdf['accessions'][:] == acn)[0][0] for acn in pheno.index]`
followed by `acn_indices.sort()`.  `np.where(v == acn)[0][0]` is the first
index of `acn` in `v` (`List.indexOf`); the in-place `.sort()` is modelled by
`List.insertionSort`. -/
def acn_indices (pheno : List (Nat × Rat)) (genoAcc : List Nat) : List Nat :=
  List.insertionSort (· ≤ ·)
    (((pheno_geno pheno genoAcc).map Prod.fst).map (fun acn => genoAcc.indexOf acn))

/-- Section 3a: `acn_order = geno_hdf['accessions'][acn_indices]`. -/
def acn_order (pheno : List (Nat × Rat)) (genoAcc : List Nat) : List Nat :=
  (acn_indices pheno genoAcc).filterMap (fun i => genoAcc.get? i)

/-- Section 3a: `pheno = pheno.loc[acn_order]` — the final phenotype table. -/
def pheno_prepared (pheno : List (Nat × Rat)) (genoAcc : List Nat) : List (Nat × Rat) :=
  loc (pheno_geno pheno genoAcc) (acn_order pheno genoAcc)

/-- Section 3a: `Y = pheno.to_numpy()` — the phenotype value column. -/
def Y (pheno : List (Nat × Rat)) (genoAcc : List Nat) : List Rat :=
  (pheno_prepared pheno genoAcc).map Prod.snd

/-- The accession labels of the rows of `Y` (the index of the final `pheno`). -/
def Y_acc_order (pheno : List (Nat × Rat)) (genoAcc : List Nat) : List Nat :=
  (pheno_prepared pheno genoAcc).map Prod.fst

/-- Section 3b: `G = geno_hdf['snps'][:, acn_indices]` — column subset of the
SNP matrix (rows = SNPs, columns = selected accessions). -/
def snps_geno (snps : List (List Int)) (idx : List Nat) : List (List Int) :=
  snps.map (fun row => idx.filterMap (fun i => row.get? i))

/-- The accession labels of the columns of `G` after the column subset
`geno_hdf['snps'][:, acn_indices]`: the genotype accessions at `acn_indices`. -/
def G_acc_order (pheno : List (Nat × Rat)) (genoAcc : List Nat) : List Nat :=
  (acn_indices pheno genoAcc).filterMap (fun i => genoAcc.get? i)

/-- Section 3b: `AC1 = G.sum(axis = 1)` — per-SNP count of `1` alleles
(row sums of the binary SNP matrix). -/
def AC1 (G : List (List Int)) : List Int := G.map (fun row => row.sum)

/-- Section 3b: `AC0 = G.shape[1] - AC1` (`n` is the column count `G.shape[1]`). -/
def AC0 (G : List (List Int)) (n : Nat) : List Int :=
  (AC1 G).map (fun s => (n : Int) - s)

/-- Section 3b: `MAC = np.min(AC, axis = 0)` with `AC = np.vstack((AC0, AC1))`. -/
def MAC (G : List (List Int)) (n : Nat) : List Int :=
  List.zipWith min (AC0 G n) (AC1 G)

/-- Section 3b: `MAF = MAC / G.shape[1]`. -/
def MAF (G : List (List Int)) (n : Nat) : List Rat :=
  (MAC G n).map (fun (m : Int) => (m : Rat) / (n : Rat))

/-- Section 3b: `SNP_indices = np.where(MAF >= maf_cutoff)[0]` — the indices
where the condition holds, in ascending order. -/
def SNP_indices (G : List (List Int)) (n : Nat) (cutoff : Rat) : List Nat :=
  (List.range (MAF G n).length).filter (fun i => decide (cutoff ≤ (MAF G n).getD i 0))

/-- Section 3b: `SNPs_MAF = MAF[SNP_indices]`. -/
def SNPs_MAF (G : List (List Int)) (n : Nat) (cutoff : Rat) : List Rat :=
  (SNP_indices G n cutoff).filterMap (fun i => (MAF G n).get? i)

/-- Section 3b: `G = G[SNP_indices, :]` — the retained SNP rows. -/
def G_filtered (G : List (List Int)) (n : Nat) (cutoff : Rat) : List (List Int) :=
  (SNP_indices G n cutoff).filterMap (fun i => G.get? i)

/-- Section 1b: `maf_cutoff = 0.1`. -/
def maf_cutoff : Rat := 1/10

/-- Section 3c:
`acn_indices = [np.where(kin_hdf['accessions'][:] == acn)[0][0] for acn in pheno.index]`
followed by `acn_indices.sort()`, where `pheno` is the final table of
section 3a. -/
def kin_indices (pheno : List (Nat × Rat)) (genoAcc kinAcc : List Nat) : List Nat :=
  List.insertionSort (· ≤ ·)
    (((pheno_prepared pheno genoAcc).map Prod.fst).map (fun acn => kinAcc.indexOf acn))

/-- The accession labels of the rows/columns of `K` after
`kin_hdf['kinship'][acn_indices, :][:, acn_indices]`: the kinship accessions at
the sorted kinship indices. -/
def K_acc_order (pheno : List (Nat × Rat)) (genoAcc kinAcc : List Nat) : List Nat :=
  (kin_indices pheno genoAcc kinAcc).filterMap (fun i => kinAcc.get? i)

/-- Section 3c: `K = kin_hdf['kinship'][acn_indices, :][:, acn_indices]`. -/
def K (kinship : List (List Rat)) (idx : List Nat) : List (List Rat) :=
  (idx.filterMap (fun i => kinship.get? i)).map
    (fun row => idx.filterMap (fun j => row.get? j))

/-- `bisect.bisect` (= `bisect_right`) from the Python stdlib: binary search
for the rightmost insertion point.  The loop is modelled with explicit fuel;
the gap `hi - lo` strictly shrinks every iteration, so `a.length + 1` steps
always suffice (see `bisect`). -/
def bisectAux (a : List Nat) (x : Nat) : Nat → Nat → Nat → Nat
  | 0, lo, _ => lo
  | fuel + 1, lo, hi =>
    if lo < hi then
      if x < a.getD ((lo + hi) / 2) 0 then bisectAux a x fuel lo ((lo + hi) / 2)
      else bisectAux a x fuel ((lo + hi) / 2 + 1) hi
    else lo

/-- `bisect.bisect(a, x)` with the default bounds `lo = 0`, `hi = len(a)`. -/
def bisect (a : List Nat) (x : Nat) : Nat :=
  bisectAux a x (a.length + 1) 0 a.length

/-- Sections 5b/5d:
`chromosomes = [bisect(chr_index[:, 1], snp_index) + 1 for snp_index in SNP_indices]`. -/
def chromosomes (chr_index : List (Nat × Nat)) (snpIdx : List Nat) : List Nat :=
  snpIdx.map (fun s => bisect (chr_index.map Prod.snd) s + 1)

/-- Sections 5b/5d: `positions = [positions_all[snp] for snp in SNP_indices]`. -/
def positions (positions_all : List Nat) (snpIdx : List Nat) : List Nat :=
  snpIdx.map (fun s => positions_all.getD s 0)

/-- One row of `gwas_results`. -/
structure ResultRow where
  chr : Nat
  pos : Nat
  pvalue : Rat
  maf : Rat
  GVE : Rat
deriving DecidableEq, Repr

/-- Sections 5b/5d: `list(zip(chromosomes, positions, pvalues, mafs, effsizes))`
(`zip` truncates at the shortest input). -/
def zipResults : List Nat → List Nat → List Rat → List Rat → List Rat → List ResultRow
  | c :: cs, p :: ps, v :: vs, m :: ms, g :: gs =>
      ⟨c, p, v, m, g⟩ :: zipResults cs ps vs ms gs
  | _, _, _, _, _ => []

/-- A pandas DataFrame as built in sections 5b/5d: column names plus rows of
cells (`chr` and `pos` cells are numbers like the rest, so all cells live in `ℚ`). -/
structure DataFrame where
  columns : List String
  data : List (List Rat)

/-- Sections 5b/5d:
`pd.DataFrame(list(zip(...)), columns = ['chr', 'pos', 'pvalue', 'maf', 'GVE'])`. -/
def gwas_results (rows : List ResultRow) : DataFrame :=
  { columns := ["chr", "pos", "pvalue", "maf", "GVE"],
    data := rows.map (fun r => [(r.chr : Rat), (r.pos : Rat), r.pvalue, r.maf, r.GVE]) }

/-- `df.to_csv(..., index = b)`: the serialized table as header cells plus data
cells.  With `index = True` pandas would prepend the row index as an extra,
unnamed leading column; the notebook passes `index = False` in both output
cells. -/
def to_csv (df : DataFrame) (index : Bool) : List String × List (List Rat) :=
  if index then
    ("" :: df.columns, df.data.enum.map (fun p => ((p.1 : Rat)) :: p.2))
  else (df.columns, df.data)

/-- A numpy ndarray as the section-4 checks see it: a shape plus data.  In this
embedding the three inputs are ndarrays by construction, so the `isinstance`
branches of the checks cannot fire. -/
structure NPArray where
  shape0 : Nat
  shape1 : Nat
  data : List (List Rat)
deriving DecidableEq

/-- Sections 4a-4c: the manual input checks, in notebook order.  Each failed
shape check does `raise ValueError(...)` with the message built in the code;
if no check fails, the cells only print and the matrices are untouched. -/
def validate_inputs (Ymat Gmat Kmat : NPArray) :
    Except String (NPArray × NPArray × NPArray) :=
  if Ymat.shape1 ≠ 1 then
    Except.error ("Number of columns in Y must be 1, but got " ++ toString Ymat.shape1)
  else if Gmat.shape0 ≠ Ymat.shape0 then
    Except.error ("Number of columns in G must be equal to the number of accession " ++
      toString Ymat.shape0 ++ ", but got " ++ toString Gmat.shape0)
  else if Kmat.shape0 ≠ Ymat.shape0 ∨ Kmat.shape1 ≠ Ymat.shape0 then
    Except.error ("Number of rows and columns in K must be equal to the number of accession " ++
      toString Ymat.shape0 ++ ", but got (" ++ toString Kmat.shape0 ++ ", " ++
      toString Kmat.shape1 ++ ")")
  else Except.ok (Ymat, Gmat, Kmat)

/-! ### Helper lemmas -/

theorem length_MAF (G : List (List Int)) (n : Nat) : (MAF G n).length = G.length := by
  unfold MAF MAC AC0 AC1
  rw [List.length_map, List.length_zipWith, List.length_map, List.length_map, Nat.min_self]

theorem mem_SNP_indices_iff (G : List (List Int)) (n : Nat) (cutoff : Rat) (i : Nat) :
    i ∈ SNP_indices G n cutoff ↔ i < G.length ∧ cutoff ≤ (MAF G n).getD i 0 := by
  simp [SNP_indices, List.mem_filter, List.mem_range, length_MAF]

theorem filterMap_get?_eq_map_getD {α : Type} (xs : List α) (d : α) :
    ∀ idx : List Nat, (∀ i ∈ idx, i < xs.length) →
      idx.filterMap (fun i => xs.get? i) = idx.map (fun i => xs.getD i d) := by
  intro idx
  induction idx with
  | nil => intro _; rfl
  | cons i t ih =>
    intro h
    have hi : i < xs.length := h i (List.mem_cons_self i t)
    have ht : ∀ j ∈ t, j < xs.length := fun j hj => h j (List.mem_cons_of_mem i hj)
    simp only [List.filterMap_cons, List.map_cons, List.get?_eq_get hi,
      List.getD_eq_getElem xs d hi, ih ht]
    rfl

/-! ### C2: the MAF filter retains exactly the SNPs at or above the cutoff -/

/-- C2: the minor-allele-frequency filter retains exactly the SNPs whose MAF is
at or above the cutoff: an index `i` is in `SNP_indices` iff it is a SNP row of
`G` with `cutoff ≤ MAF[i]`, and the filtered genotype matrix consists exactly
of the rows of `G` at those indices (SNPs below the cutoff are dropped, all
others retained). -/
theorem C2_maf_filter (G : List (List Int)) (n : Nat) (cutoff : Rat) :
    (∀ i, i ∈ SNP_indices G n cutoff ↔ i < G.length ∧ cutoff ≤ (MAF G n).getD i 0) ∧
    G_filtered G n cutoff = (SNP_indices G n cutoff).map (fun i => G.getD i []) := by
  refine ⟨mem_SNP_indices_iff G n cutoff, ?_⟩
  exact filterMap_get?_eq_map_getD G []
    (SNP_indices G n cutoff)
    (fun i hi => ((mem_SNP_indices_iff G n cutoff i).1 hi).1)

/-! ### C6: output CSV shape -/

/-- C6: every output CSV written by the pipeline (both `to_csv(..., index = False)`
calls) has exactly the five columns `chr`, `pos`, `pvalue`, `maf`, `GVE` in that
order, no index column, and every data line has exactly five cells. -/
theorem C6_csv_columns (rows : List ResultRow) :
    (to_csv (gwas_results rows) false).1 = ["chr", "pos", "pvalue", "maf", "GVE"] ∧
    ∀ line ∈ (to_csv (gwas_results rows) false).2, line.length = 5 := by
  constructor
  · rfl
  · intro line hline
    simp only [to_csv, gwas_results, Bool.false_eq_true, if_false, List.mem_map] at hline
    obtain ⟨r, _, rfl⟩ := hline
    rfl

/-! ### C7: the section-4 input validation -/

/-- C7: the input validation succeeds, returning the matrices unchanged, exactly
when all the manual shape checks pass (Y has one column, G has as many rows as
Y, K is square with side Y's row count); it fails with a user-facing error
message exactly when one of the checks is violated.  The `isinstance` branches
cannot fire in this embedding, where the three inputs are ndarrays by type. -/
theorem C7_validation (Ymat Gmat Kmat : NPArray) :
    (validate_inputs Ymat Gmat Kmat = Except.ok (Ymat, Gmat, Kmat) ↔
      (Ymat.shape1 = 1 ∧ Gmat.shape0 = Ymat.shape0 ∧
        Kmat.shape0 = Ymat.shape0 ∧ Kmat.shape1 = Ymat.shape0)) ∧
    ((∃ e, validate_inputs Ymat Gmat Kmat = Except.error e) ↔
      ¬(Ymat.shape1 = 1 ∧ Gmat.shape0 = Ymat.shape0 ∧
        Kmat.shape0 = Ymat.shape0 ∧ Kmat.shape1 = Ymat.shape0)) := by
  unfold validate_inputs
  split_ifs with h1 h2 h3
  · constructor
    · constructor
      · intro h; cases h
      · intro h; exact absurd h.1 h1
    · constructor
      · intro _ h; exact h1 h.1
      · intro _; exact ⟨_, rfl⟩
  · constructor
    · constructor
      · intro h; cases h
      · intro h; exact absurd h.2.1 h2
    · constructor
      · intro _ h; exact h2 h.2.1
      · intro _; exact ⟨_, rfl⟩
  · constructor
    · constructor
      · intro h; cases h
      · intro h
        rcases h3 with h3 | h3
        · exact absurd h.2.2.1 h3
        · exact absurd h.2.2.2 h3
    · constructor
      · intro _ h
        rcases h3 with h3 | h3
        · exact h3 h.2.2.1
        · exact h3 h.2.2.2
      · intro _; exact ⟨_, rfl⟩
  · push_neg at h1 h3
    constructor
    · simp only [true_iff]
      exact ⟨h1, not_not.1 h2, h3.1, h3.2⟩
    · constructor
      · rintro ⟨e, he⟩; cases he
      · intro h; exact absurd ⟨h1, not_not.1 h2, h3.1, h3.2⟩ h

/-! ### Concrete evaluations used by witnesses -/

theorem SNP_indices_example : SNP_indices [[0,1],[1,1],[0,0]] 2 maf_cutoff = [0] := by
  norm_num [SNP_indices, MAF, MAC, AC0, AC1, maf_cutoff, List.filter_cons, List.range_succ]

theorem MAF_example : MAF [[0,1],[1,1],[0,0]] 2 = [1/2, 0, 0] := by
  norm_num [MAF, MAC, AC0, AC1]

theorem SNPs_MAF_example : SNPs_MAF [[0,1],[1,1],[0,0]] 2 maf_cutoff = [1/2] := by
  rw [SNPs_MAF, SNP_indices_example, MAF_example]
  rfl

/-! ### C4: one output row per retained SNP -/

theorem zipResults_length (k : Nat) :
    ∀ c p : List Nat, ∀ v m g : List Rat, c.length = k → p.length = k → v.length = k →
      m.length = k → g.length = k → (zipResults c p v m g).length = k := by
  induction k with
  | zero =>
    intro c p v m g hc _ _ _ _
    rw [List.length_eq_zero] at hc
    subst hc
    rfl
  | succ k ih =>
    intro c p v m g hc hp hv hm hg
    match c, p, v, m, g with
    | c0 :: c, p0 :: p, v0 :: v, m0 :: m, g0 :: g =>
      simp only [List.length_cons, Nat.succ_inj] at hc hp hv hm hg
      simp only [zipResults, List.length_cons, Nat.succ_inj]
      exact ih c p v m g hc hp hv hm hg

theorem length_SNPs_MAF (G : List (List Int)) (n : Nat) (cutoff : Rat) :
    (SNPs_MAF G n cutoff).length = (SNP_indices G n cutoff).length := by
  rw [SNPs_MAF, filterMap_get?_eq_map_getD (MAF G n) 0 (SNP_indices G n cutoff)
    (fun i hi => by
      rw [length_MAF]
      exact ((mem_SNP_indices_iff G n cutoff i).1 hi).1), List.length_map]

/-- C4: each serialized result table has exactly one row per SNP retained by
the MAF filter: when the scan supplies one p-value and one candidate effect
size per retained SNP, the number of rows of `gwas_results` equals the length
of `SNP_indices`. -/
theorem C4_row_count (G : List (List Int)) (n : Nat) (cutoff : Rat)
    (chr_index : List (Nat × Nat)) (positions_all : List Nat)
    (pvalues effsizes : List Rat)
    (hpv : pvalues.length = (SNP_indices G n cutoff).length)
    (heff : effsizes.length = (SNP_indices G n cutoff).length) :
    (zipResults (chromosomes chr_index (SNP_indices G n cutoff))
        (positions positions_all (SNP_indices G n cutoff))
        pvalues (SNPs_MAF G n cutoff) effsizes).length
      = (SNP_indices G n cutoff).length := by
  exact zipResults_length (SNP_indices G n cutoff).length _ _ _ _ _
    (List.length_map _ _) (List.length_map _ _) hpv (length_SNPs_MAF G n cutoff) heff

/-- C4 witness: a concrete run.  `G = [[0,1],[1,1],[0,0]]` over `n = 2`
accessions with the notebook's `maf_cutoff = 0.1` retains exactly SNP 0, and
with one p-value and one effect size the table has exactly one row. -/
theorem C4_row_count_witness :
    ([(1 : Rat)].length = (SNP_indices [[0,1],[1,1],[0,0]] 2 maf_cutoff).length ∧
      [(2 : Rat)].length = (SNP_indices [[0,1],[1,1],[0,0]] 2 maf_cutoff).length) ∧
    (zipResults (chromosomes [(0, 2), (2, 3)] (SNP_indices [[0,1],[1,1],[0,0]] 2 maf_cutoff))
        (positions [11, 22, 33] (SNP_indices [[0,1],[1,1],[0,0]] 2 maf_cutoff))
        [(1 : Rat)] (SNPs_MAF [[0,1],[1,1],[0,0]] 2 maf_cutoff) [(2 : Rat)]).length
      = (SNP_indices [[0,1],[1,1],[0,0]] 2 maf_cutoff).length :=
  ⟨⟨by rw [SNP_indices_example]; rfl, by rw [SNP_indices_example]; rfl⟩,
    C4_row_count [[0,1],[1,1],[0,0]] 2 maf_cutoff [(0, 2), (2, 3)] [11, 22, 33]
      [(1 : Rat)] [(2 : Rat)] (by rw [SNP_indices_example]; rfl) (by rw [SNP_indices_example]; rfl)⟩

/-! ### C10: the two result tables share chr, pos and maf columns -/

theorem zipResults_proj :
    ∀ c p : List Nat, ∀ m v v' g g' : List Rat, v.length = v'.length →
      g.length = g'.length →
      (zipResults c p v m g).map (fun r => (r.chr, r.pos, r.maf)) =
        (zipResults c p v' m g').map (fun r => (r.chr, r.pos, r.maf)) := by
  intro c
  induction c with
  | nil => intro p m v v' g g' _ _; rfl
  | cons c0 c ih =>
    intro p m v v' g g' hv hg
    match p with
    | [] => rfl
    | p0 :: p =>
      match v, v', hv with
      | [], [], _ => rfl
      | v0 :: v, v0' :: v', hv =>
        match m with
        | [] => rfl
        | m0 :: m =>
          match g, g', hg with
          | [], [], _ => rfl
          | g0 :: g, g0' :: g', hg =>
            simp only [List.length_cons, Nat.succ_inj] at hv hg
            exact congrArg (List.cons _) (ih p m v v' g g' hv hg)

/-- C10: the result table of the scan with kinship correction and the one
without it have identical `chr`, `pos` and `maf` columns row for row (both
output cells recompute chromosomes, positions and MAFs from the same
`SNP_indices` and the same genotype file); the two tables can differ only in
the `pvalue` and `GVE` columns. -/
theorem C10_shared_columns (G : List (List Int)) (n : Nat) (cutoff : Rat)
    (chr_index : List (Nat × Nat)) (positions_all : List Nat)
    (pv1 eff1 pv2 eff2 : List Rat)
    (hpv : pv1.length = pv2.length) (heff : eff1.length = eff2.length) :
    (zipResults (chromosomes chr_index (SNP_indices G n cutoff))
        (positions positions_all (SNP_indices G n cutoff))
        pv1 (SNPs_MAF G n cutoff) eff1).map (fun r => (r.chr, r.pos, r.maf)) =
      (zipResults (chromosomes chr_index (SNP_indices G n cutoff))
        (positions positions_all (SNP_indices G n cutoff))
        pv2 (SNPs_MAF G n cutoff) eff2).map (fun r => (r.chr, r.pos, r.maf)) :=
  zipResults_proj _ _ _ _ _ _ _ hpv heff

/-- C10 witness: the same concrete run as for C4, with two different
p-value/effect-size vectors, yields tables agreeing on `chr`, `pos`, `maf`. -/
theorem C10_shared_columns_witness :
    ([(1 : Rat)].length = [(3 : Rat)].length ∧ [(2 : Rat)].length = [(4 : Rat)].length) ∧
    (zipResults (chromosomes [(0, 2), (2, 3)] (SNP_indices [[0,1],[1,1],[0,0]] 2 maf_cutoff))
        (positions [11, 22, 33] (SNP_indices [[0,1],[1,1],[0,0]] 2 maf_cutoff))
        [(1 : Rat)] (SNPs_MAF [[0,1],[1,1],[0,0]] 2 maf_cutoff) [(2 : Rat)]).map
          (fun r => (r.chr, r.pos, r.maf)) =
      (zipResults (chromosomes [(0, 2), (2, 3)] (SNP_indices [[0,1],[1,1],[0,0]] 2 maf_cutoff))
        (positions [11, 22, 33] (SNP_indices [[0,1],[1,1],[0,0]] 2 maf_cutoff))
        [(3 : Rat)] (SNPs_MAF [[0,1],[1,1],[0,0]] 2 maf_cutoff) [(4 : Rat)]).map
          (fun r => (r.chr, r.pos, r.maf)) :=
  ⟨⟨rfl, rfl⟩,
    C10_shared_columns [[0,1],[1,1],[0,0]] 2 maf_cutoff [(0, 2), (2, 3)] [11, 22, 33]
      [(1 : Rat)] [(2 : Rat)] [(3 : Rat)] [(4 : Rat)] rfl rfl⟩

/-! ### C3: the MAF of each SNP is the rarer allele's count over the sample size -/

theorem sum_count_binary :
    ∀ row : List Int, (∀ x ∈ row, x = 0 ∨ x = 1) →
      row.sum = (row.count 1 : Int) ∧
        (row.length : Int) = (row.count 0 : Int) + (row.count 1 : Int) := by
  intro row
  induction row with
  | nil => intro _; exact ⟨rfl, rfl⟩
  | cons x t ih =>
    intro h
    have hx := h x (List.mem_cons_self x t)
    have ht := ih (fun y hy => h y (List.mem_cons_of_mem x hy))
    rcases hx with hx | hx <;> subst hx
    · rw [List.sum_cons, List.count_cons_self,
        List.count_cons_of_ne (by decide : (1 : Int) ≠ 0), List.length_cons]
      push_cast
      omega
    · rw [List.sum_cons, List.count_cons_self,
        List.count_cons_of_ne (by decide : (0 : Int) ≠ 1), List.length_cons]
      push_cast
      omega

/-- C3: for every SNP row of the genotype matrix consisting of 0/1 calls over
`n` accessions, the computed minor allele frequency is the count of the rarer
allele divided by the sample size: `MAF[i] = min(#1-alleles, #0-alleles) / n`. -/
theorem C3_maf_value (G : List (List Int)) (n : Nat)
    (hbin : ∀ row ∈ G, ∀ x ∈ row, x = 0 ∨ x = 1)
    (hlen : ∀ row ∈ G, row.length = n) :
    ∀ i, i < G.length →
      (MAF G n).getD i 0 =
        ((min ((G.getD i []).count 1) ((G.getD i []).count 0) : Nat) : Rat) / (n : Rat) := by
  intro i hi
  have hmaflen : i < (MAF G n).length := by rw [length_MAF]; exact hi
  have hmac : i < (MAC G n).length := by
    have := hmaflen; rw [MAF, List.length_map] at this; exact this
  have hac0 : i < (AC0 G n).length := by
    have := hmac; rw [MAC, List.length_zipWith] at this; omega
  have hac1 : i < (AC1 G).length := by
    have := hmac; rw [MAC, List.length_zipWith] at this; omega
  rw [List.getD_eq_getElem _ 0 hmaflen, List.getD_eq_getElem G [] hi]
  have hval : (MAF G n)[i] =
      ((min ((n : Int) - G[i].sum) (G[i].sum) : Int) : Rat) / (n : Rat) := by
    simp only [MAF, MAC, AC0, AC1, List.getElem_map, List.getElem_zipWith]
  rw [hval]
  have hrow := sum_count_binary G[i] (hbin G[i] (List.getElem_mem hi))
  have hrl : G[i].length = n := hlen G[i] (List.getElem_mem hi)
  have h0 : (n : Int) - G[i].sum = (G[i].count 0 : Int) := by
    rw [hrow.1]; rw [hrl] at hrow; omega
  have h1 : min ((n : Int) - G[i].sum) (G[i].sum) =
      ((min (G[i].count 1) (G[i].count 0) : Nat) : Int) := by
    rw [h0, hrow.1, Nat.min_comm]
    push_cast
    rfl
  rw [h1]
  push_cast
  rfl

/-- C3 witness: for the concrete binary matrix `[[0,1],[1,1],[0,0]]` over two
accessions, the computed MAFs agree with `min(#1, #0) / 2` per row. -/
theorem C3_maf_value_witness :
    ((∀ row ∈ [[0,1],[1,1],[0,0]], ∀ x ∈ row, x = (0 : Int) ∨ x = 1) ∧
      (∀ row ∈ [[0,1],[1,1],[0,0]], List.length row = 2)) ∧
    (∀ i, i < ([[0,1],[1,1],[0,0]] : List (List Int)).length →
      (MAF [[0,1],[1,1],[0,0]] 2).getD i 0 =
        ((min (([[0,1],[1,1],[0,0]] : List (List Int)).getD i [] |>.count 1)
          (([[0,1],[1,1],[0,0]] : List (List Int)).getD i [] |>.count 0) : Nat) : Rat) / (2 : Rat)) :=
  ⟨⟨by decide, by decide⟩, C3_maf_value [[0,1],[1,1],[0,0]] 2 (by decide) (by decide)⟩

/-! ### C9: every maf written to the output lies in [cutoff, 1/2] -/

theorem zipResults_maf_mem :
    ∀ (c p : List Nat) (v m g : List Rat) (r : ResultRow),
      r ∈ zipResults c p v m g → r.maf ∈ m := by
  intro c
  induction c with
  | nil => intro p v m g r h; exact absurd h (List.not_mem_nil r)
  | cons c0 c ih =>
    intro p v m g r h
    match p, v, m, g with
    | [], _, _, _ => exact absurd h (List.not_mem_nil r)
    | _ :: _, [], _, _ => exact absurd h (List.not_mem_nil r)
    | _ :: _, _ :: _, [], _ => exact absurd h (List.not_mem_nil r)
    | _ :: _, _ :: _, _ :: _, [] => exact absurd h (List.not_mem_nil r)
    | p0 :: p, v0 :: v, m0 :: m, g0 :: g =>
      rcases List.mem_cons.1 h with h | h
      · subst h; exact List.mem_cons_self _ _
      · exact List.mem_cons_of_mem _ (ih p v m g r h)

theorem mem_SNPs_MAF_bounds (G : List (List Int)) (n : Nat) (cutoff : Rat) (m : Rat)
    (hm : m ∈ SNPs_MAF G n cutoff) : cutoff ≤ m ∧ m ≤ 1/2 := by
  rw [SNPs_MAF] at hm
  rcases List.mem_filterMap.1 hm with ⟨i, hi, hget⟩
  rw [List.get?_eq_getElem?, List.getElem?_eq_some] at hget
  rcases hget with ⟨hlt, hval⟩
  have hcut : cutoff ≤ (MAF G n).getD i 0 := ((mem_SNP_indices_iff G n cutoff i).1 hi).2
  rw [List.getD_eq_getElem _ 0 hlt, hval] at hcut
  refine ⟨hcut, ?_⟩
  have hmac : i < (MAC G n).length := by
    have := hlt; rw [MAF, List.length_map] at this; exact this
  have hgl : i < G.length := by rwa [length_MAF] at hlt
  have hform : m = ((min ((n : Int) - (G[i]).sum) ((G[i]).sum) : Int) : Rat) / (n : Rat) := by
    rw [← hval]
    simp only [MAF, MAC, AC0, AC1, List.getElem_map, List.getElem_zipWith]
  set s : Int := (G[i]).sum with hs
  have hc : (2 : Int) * min ((n : Int) - s) s ≤ n := by omega
  rcases Nat.eq_zero_or_pos n with hn | hn
  · subst hn
    rw [hform]
    norm_num
  · have hnq : (0 : Rat) < (n : Rat) := by exact_mod_cast hn
    rw [hform, div_le_iff₀ hnq]
    have hcq : ((min ((n : Int) - s) s : Int) : Rat) * 2 ≤ (n : Rat) := by
      exact_mod_cast (by omega : (min ((n : Int) - s) s) * 2 ≤ (n : Int))
    linarith

/-- C9: every `maf` value written to either output CSV lies between the
configured cutoff and one half: the minor-allele count is the minimum of the
two allele counts, so its frequency never exceeds 1/2, and only SNPs at or
above the cutoff reach the output. -/
theorem C9_maf_range (G : List (List Int)) (n : Nat) (cutoff : Rat)
    (chrs poss : List Nat) (pvals effs : List Rat) (r : ResultRow)
    (hr : r ∈ zipResults chrs poss pvals (SNPs_MAF G n cutoff) effs) :
    cutoff ≤ r.maf ∧ r.maf ≤ 1/2 :=
  mem_SNPs_MAF_bounds G n cutoff r.maf
    (zipResults_maf_mem chrs poss pvals (SNPs_MAF G n cutoff) effs r hr)

/-- C9 witness: in the concrete run, the single output row carries
`maf = 1/2`, which lies between `maf_cutoff = 0.1` and `1/2`. -/
theorem C9_maf_range_witness :
    ((⟨1, 11, 1, 1/2, 2⟩ : ResultRow) ∈
        zipResults [1] [11] [1] (SNPs_MAF [[0,1],[1,1],[0,0]] 2 maf_cutoff) [2]) ∧
    (maf_cutoff ≤ (⟨1, 11, 1, 1/2, 2⟩ : ResultRow).maf ∧
      (⟨1, 11, 1, 1/2, 2⟩ : ResultRow).maf ≤ 1/2) := by
  have hmem : (⟨1, 11, 1, 1/2, 2⟩ : ResultRow) ∈
      zipResults [1] [11] [1] (SNPs_MAF [[0,1],[1,1],[0,0]] 2 maf_cutoff) [2] := by
    rw [SNPs_MAF_example]
    exact List.mem_cons_self _ _
  exact ⟨hmem, C9_maf_range [[0,1],[1,1],[0,0]] 2 maf_cutoff [1] [11] [1] [2] _ hmem⟩

/-! ### C5: chromosome attribution by binary search -/

theorem sorted_getElem_mono (a : List Nat) (hsort : List.Sorted (· ≤ ·) a)
    (j k : Nat) (hj : j < a.length) (hk : k < a.length) (hjk : j ≤ k) : a[j] ≤ a[k] := by
  rcases Nat.eq_or_lt_of_le hjk with h | h
  · subst h; exact le_refl _
  · exact hsort.rel_get_of_lt (show (⟨j, hj⟩ : Fin a.length) < ⟨k, hk⟩ from h)

theorem bisectAux_spec (a : List Nat) (x : Nat) (hsort : List.Sorted (· ≤ ·) a) :
    ∀ fuel lo hi, hi - lo < fuel → lo ≤ hi → hi ≤ a.length →
      (∀ i, ∀ h : i < a.length, i < lo → a[i] ≤ x) →
      (∀ i, ∀ h : i < a.length, hi ≤ i → x < a[i]) →
      lo ≤ bisectAux a x fuel lo hi ∧ bisectAux a x fuel lo hi ≤ hi ∧
        (∀ i, ∀ h : i < a.length, i < bisectAux a x fuel lo hi → a[i] ≤ x) ∧
        (∀ i, ∀ h : i < a.length, bisectAux a x fuel lo hi ≤ i → x < a[i]) := by
  intro fuel
  induction fuel with
  | zero => intro lo hi hfuel; exact absurd hfuel (by omega)
  | succ fuel ih =>
    intro lo hi hfuel hlohi hhi h1 h2
    simp only [bisectAux]
    by_cases hlt : lo < hi
    · rw [if_pos hlt]
      have hmlo : lo ≤ (lo + hi) / 2 := by omega
      have hmhi : (lo + hi) / 2 < hi := by omega
      have hmlen : (lo + hi) / 2 < a.length := by omega
      rw [List.getD_eq_getElem a 0 hmlen]
      by_cases hx : x < a[(lo + hi) / 2]
      · rw [if_pos hx]
        have h2m : ∀ i, ∀ h : i < a.length, (lo + hi) / 2 ≤ i → x < a[i] := by
          intro i h hmi
          exact lt_of_lt_of_le hx (sorted_getElem_mono a hsort _ i hmlen h hmi)
        obtain ⟨g1, g2, g3, g4⟩ := ih lo ((lo + hi) / 2) (by omega) (by omega) (by omega) h1 h2m
        exact ⟨g1, by omega, g3, g4⟩
      · rw [if_neg hx]
        push_neg at hx
        have h1m : ∀ i, ∀ h : i < a.length, i < (lo + hi) / 2 + 1 → a[i] ≤ x := by
          intro i h him
          rcases Nat.lt_or_ge i lo with hi' | hi'
          · exact h1 i h hi'
          · exact le_trans (sorted_getElem_mono a hsort i _ h hmlen (by omega)) hx
        obtain ⟨g1, g2, g3, g4⟩ := ih ((lo + hi) / 2 + 1) hi (by omega) (by omega) hhi h1m h2
        exact ⟨by omega, g2, g3, g4⟩
    · rw [if_neg hlt]
      have heq : lo = hi := by omega
      exact ⟨le_refl lo, by omega, h1, fun i h hl => h2 i h (by omega)⟩

theorem bisect_spec (a : List Nat) (x : Nat) (hsort : List.Sorted (· ≤ ·) a) :
    bisect a x ≤ a.length ∧
      (∀ i, ∀ h : i < a.length, i < bisect a x → a[i] ≤ x) ∧
      (∀ i, ∀ h : i < a.length, bisect a x ≤ i → x < a[i]) := by
  have h := bisectAux_spec a x hsort (a.length + 1) 0 a.length (by omega) (by omega)
    (le_refl _) (fun i h hi0 => absurd hi0 (Nat.not_lt_zero i))
    (fun i h hlen => absurd h (by omega))
  exact ⟨h.2.1, h.2.2.1, h.2.2.2⟩

theorem bisect_mono (a : List Nat) (hsort : List.Sorted (· ≤ ·) a) (x y : Nat)
    (hxy : x ≤ y) : bisect a x ≤ bisect a y := by
  by_contra hcon
  push_neg at hcon
  have s1 := bisect_spec a x hsort
  have s2 := bisect_spec a y hsort
  have hlen : bisect a y < a.length := lt_of_lt_of_le hcon s1.1
  have hax : a[bisect a y] ≤ x := s1.2.1 _ hlen hcon
  have hay : y < a[bisect a y] := s2.2.2 _ hlen (le_refl _)
  omega

/-- C5: chromosome attribution is computed by binary search of each retained
SNP index against the cumulative chromosome boundaries `chr_index[:, 1]`
(`chromosomes` assigns `bisect(bounds, s) + 1`).  For the retained SNPs, taken
in ascending index order, the assigned chromosome numbers are nondecreasing;
and each SNP's assigned chromosome is consistent with the boundary metadata:
the SNP's index lies inside the `(start, end)` region recorded for that
chromosome (region `bisect(bounds, s)`, i.e. chromosome number
`bisect(bounds, s) + 1`).  Hypotheses: the region rows are contiguous
(`start` of each row is the `end` of the previous one, the first `start`
is 0), the `end` boundaries are nondecreasing, and every retained SNP index
lies below the final boundary. -/
theorem C5_chromosome_assignment (G : List (List Int)) (n : Nat) (cutoff : Rat)
    (chr_index : List (Nat × Nat))
    (hne : chr_index ≠ [])
    (hsort : List.Sorted (· ≤ ·) (chr_index.map Prod.snd))
    (hstart : (chr_index.getD 0 (0, 0)).1 = 0)
    (hchain : ∀ c < chr_index.length - 1,
      (chr_index.getD (c + 1) (0, 0)).1 = (chr_index.getD c (0, 0)).2)
    (hwithin : ∀ s ∈ SNP_indices G n cutoff,
      s < (chr_index.getD (chr_index.length - 1) (0, 0)).2) :
    List.Pairwise (· ≤ ·) (chromosomes chr_index (SNP_indices G n cutoff)) ∧
    ∀ s ∈ SNP_indices G n cutoff,
      bisect (chr_index.map Prod.snd) s < chr_index.length ∧
      (chr_index.getD (bisect (chr_index.map Prod.snd) s) (0, 0)).1 ≤ s ∧
      s < (chr_index.getD (bisect (chr_index.map Prod.snd) s) (0, 0)).2 := by
  have hlen0 : 0 < chr_index.length := List.length_pos.2 hne
  have hmaplen : (chr_index.map Prod.snd).length = chr_index.length :=
    List.length_map chr_index Prod.snd
  constructor
  · -- monotone chromosome numbers along the ascending retained indices
    have hpw : List.Pairwise (· < ·) (SNP_indices G n cutoff) :=
      (List.pairwise_lt_range (MAF G n).length).sublist (List.filter_sublist _)
    exact hpw.map _ (fun s t hst =>
      Nat.succ_le_succ (bisect_mono (chr_index.map Prod.snd) hsort s t (le_of_lt hst)))
  · intro s hs
    have hspec := bisect_spec (chr_index.map Prod.snd) s hsort
    have hwit := hwithin s hs
    -- the last boundary, as an element of the mapped list
    have hidx1 : chr_index.length - 1 < chr_index.length := by omega
    have hmap1 : chr_index.length - 1 < (chr_index.map Prod.snd).length := by omega
    have hlast : (chr_index.map Prod.snd)[chr_index.length - 1] =
        (chr_index.getD (chr_index.length - 1) (0, 0)).2 := by
      rw [List.getElem_map, List.getD_eq_getElem chr_index (0, 0) hidx1]
    have hmlt : bisect (chr_index.map Prod.snd) s < chr_index.length := by
      by_contra hcon
      push_neg at hcon
      have hidx : chr_index.length - 1 < bisect (chr_index.map Prod.snd) s := by omega
      have := hspec.2.1 (chr_index.length - 1) (by omega) hidx
      rw [hlast] at this
      omega
    refine ⟨hmlt, ?_, ?_⟩
    · -- region start ≤ s
      rcases Nat.eq_zero_or_pos (bisect (chr_index.map Prod.snd) s) with h0 | hpos
      · rw [h0, hstart]; exact Nat.zero_le s
      · have hk : bisect (chr_index.map Prod.snd) s - 1 < chr_index.length := by omega
        have hkk := hspec.2.1 (bisect (chr_index.map Prod.snd) s - 1) (by omega) (by omega)
        rw [List.getElem_map] at hkk
        have hstep := hchain (bisect (chr_index.map Prod.snd) s - 1) (by omega)
        rw [List.getD_eq_getElem chr_index (0, 0) hk] at hstep
        have hsucc : bisect (chr_index.map Prod.snd) s - 1 + 1 =
            bisect (chr_index.map Prod.snd) s := by omega
        rw [hsucc] at hstep
        rw [hstep]
        exact hkk
    · -- s < region end
      have := hspec.2.2 (bisect (chr_index.map Prod.snd) s) (by omega) (le_refl _)
      rw [List.getElem_map] at this
      rw [List.getD_eq_getElem chr_index (0, 0) hmlt]
      exact this

/-- C5 witness: the concrete run with regions `[(0,2), (2,3)]` (chromosome 1
covers SNP indices 0-1, chromosome 2 covers index 2) and the retained SNP
index 0: the assignment is monotone and lands in the right region. -/
theorem C5_chromosome_assignment_witness :
    (([(0, 2), (2, 3)] : List (Nat × Nat)) ≠ [] ∧
      List.Sorted (· ≤ ·) (([(0, 2), (2, 3)] : List (Nat × Nat)).map Prod.snd) ∧
      (([(0, 2), (2, 3)] : List (Nat × Nat)).getD 0 (0, 0)).1 = 0 ∧
      (∀ c < ([(0, 2), (2, 3)] : List (Nat × Nat)).length - 1,
        (([(0, 2), (2, 3)] : List (Nat × Nat)).getD (c + 1) (0, 0)).1 =
          (([(0, 2), (2, 3)] : List (Nat × Nat)).getD c (0, 0)).2) ∧
      (∀ s ∈ SNP_indices [[0,1],[1,1],[0,0]] 2 maf_cutoff,
        s < (([(0, 2), (2, 3)] : List (Nat × Nat)).getD
          (([(0, 2), (2, 3)] : List (Nat × Nat)).length - 1) (0, 0)).2)) ∧
    (List.Pairwise (· ≤ ·)
        (chromosomes [(0, 2), (2, 3)] (SNP_indices [[0,1],[1,1],[0,0]] 2 maf_cutoff)) ∧
      ∀ s ∈ SNP_indices [[0,1],[1,1],[0,0]] 2 maf_cutoff,
        bisect (([(0, 2), (2, 3)] : List (Nat × Nat)).map Prod.snd) s <
          ([(0, 2), (2, 3)] : List (Nat × Nat)).length ∧
        (([(0, 2), (2, 3)] : List (Nat × Nat)).getD
          (bisect (([(0, 2), (2, 3)] : List (Nat × Nat)).map Prod.snd) s) (0, 0)).1 ≤ s ∧
        s < (([(0, 2), (2, 3)] : List (Nat × Nat)).getD
          (bisect (([(0, 2), (2, 3)] : List (Nat × Nat)).map Prod.snd) s) (0, 0)).2) :=
  ⟨⟨by decide, by decide, by decide, by decide, by rw [SNP_indices_example]; decide⟩,
    C5_chromosome_assignment [[0,1],[1,1],[0,0]] 2 maf_cutoff [(0, 2), (2, 3)]
      (by decide) (by decide) (by decide) (by decide)
      (by rw [SNP_indices_example]; decide)⟩

/-! ### Alignment machinery for C1 and C8 -/

theorem loc_cons_found (pheno : List (Nat × Rat)) (k : Nat) (t : List Nat) (q : Nat × Rat)
    (hq : pheno.find? (fun p => p.1 == k) = some q) :
    loc pheno (k :: t) = (k, q.2) :: loc pheno t := by
  simp only [loc, List.filterMap_cons, hq]
  rfl

theorem loc_cons_none (pheno : List (Nat × Rat)) (k : Nat) (t : List Nat)
    (hq : pheno.find? (fun p => p.1 == k) = none) :
    loc pheno (k :: t) = loc pheno t := by
  simp only [loc, List.filterMap_cons, hq]
  rfl

theorem loc_keys (pheno : List (Nat × Rat)) :
    ∀ ks : List Nat, (∀ k ∈ ks, k ∈ pheno.map Prod.fst) →
      (loc pheno ks).map Prod.fst = ks := by
  intro ks
  induction ks with
  | nil => intro _; rfl
  | cons k t ih =>
    intro h
    have hk : k ∈ pheno.map Prod.fst := h k (List.mem_cons_self k t)
    rcases List.mem_map.1 hk with ⟨p, hp, hpk⟩
    have hsome : (pheno.find? (fun q => q.1 == k)).isSome :=
      List.find?_isSome.2 ⟨p, hp, by simp [beq_iff_eq, hpk]⟩
    obtain ⟨q, hq⟩ := Option.isSome_iff_exists.1 hsome
    rw [loc_cons_found pheno k t q hq, List.map_cons]
    exact congrArg (List.cons k) (ih (fun j hj => h j (List.mem_cons_of_mem k hj)))

theorem mem_acn_genotyped (pheno : List (Nat × Rat)) (genoAcc : List Nat) (k : Nat)
    (hk : k ∈ acn_genotyped pheno genoAcc) :
    k ∈ pheno.map Prod.fst ∧ k ∈ genoAcc := by
  rw [acn_genotyped, List.mem_filter] at hk
  refine ⟨hk.1, ?_⟩
  have := hk.2
  simpa using this

theorem pheno_geno_keys (pheno : List (Nat × Rat)) (genoAcc : List Nat) :
    (pheno_geno pheno genoAcc).map Prod.fst = acn_genotyped pheno genoAcc :=
  loc_keys pheno _ (fun k hk => (mem_acn_genotyped pheno genoAcc k hk).1)

theorem mem_acn_indices (pheno : List (Nat × Rat)) (genoAcc : List Nat) (i : Nat)
    (hi : i ∈ acn_indices pheno genoAcc) :
    ∃ k ∈ acn_genotyped pheno genoAcc, i = genoAcc.indexOf k := by
  rw [acn_indices] at hi
  have hi' := (List.perm_insertionSort (· ≤ ·) _).subset hi
  rw [pheno_geno_keys] at hi'
  rcases List.mem_map.1 hi' with ⟨k, hk, hik⟩
  exact ⟨k, hk, hik.symm⟩

theorem mem_acn_order (pheno : List (Nat × Rat)) (genoAcc : List Nat) (a : Nat)
    (ha : a ∈ acn_order pheno genoAcc) : a ∈ acn_genotyped pheno genoAcc := by
  rw [acn_order] at ha
  rcases List.mem_filterMap.1 ha with ⟨i, hi, hget⟩
  rcases mem_acn_indices pheno genoAcc i hi with ⟨k, hk, rfl⟩
  have hkg : k ∈ genoAcc := (mem_acn_genotyped pheno genoAcc k hk).2
  rw [List.indexOf_get? hkg] at hget
  cases hget
  exact hk

theorem Y_acc_order_eq (pheno : List (Nat × Rat)) (genoAcc : List Nat) :
    Y_acc_order pheno genoAcc = acn_order pheno genoAcc := by
  rw [Y_acc_order, pheno_prepared]
  apply loc_keys
  intro k hk
  rw [pheno_geno_keys]
  exact mem_acn_order pheno genoAcc k hk

theorem filterMap_eq_self_of (l : List Nat) (f : Nat → Option Nat)
    (h : ∀ k ∈ l, f k = some k) : l.filterMap f = l := by
  induction l with
  | nil => rfl
  | cons k t ih =>
    rw [List.filterMap_cons_some (h k (List.mem_cons_self k t))]
    exact congrArg (List.cons k) (ih (fun j hj => h j (List.mem_cons_of_mem k hj)))

theorem K_acc_order_perm (pheno : List (Nat × Rat)) (genoAcc kinAcc : List Nat)
    (hkin : ∀ a ∈ Y_acc_order pheno genoAcc, a ∈ kinAcc) :
    List.Perm (K_acc_order pheno genoAcc kinAcc) (Y_acc_order pheno genoAcc) := by
  rw [K_acc_order, kin_indices]
  have hstep :
      ((Y_acc_order pheno genoAcc).map (fun acn => kinAcc.indexOf acn)).filterMap
        (fun i => kinAcc.get? i) = Y_acc_order pheno genoAcc := by
    rw [List.filterMap_map]
    exact filterMap_eq_self_of _ _
      (fun k hk => List.indexOf_get? (hkin k hk))
  calc ((List.insertionSort (· ≤ ·)
          (((pheno_prepared pheno genoAcc).map Prod.fst).map
            (fun acn => kinAcc.indexOf acn))).filterMap (fun i => kinAcc.get? i)).Perm
        ((((pheno_prepared pheno genoAcc).map Prod.fst).map
          (fun acn => kinAcc.indexOf acn)).filterMap (fun i => kinAcc.get? i)) :=
      (List.perm_insertionSort (· ≤ ·) _).filterMap _
    _ = Y_acc_order pheno genoAcc := hstep

theorem sorted_acn_indices (pheno : List (Nat × Rat)) (genoAcc : List Nat) :
    List.Sorted (· ≤ ·) (acn_indices pheno genoAcc) :=
  List.sorted_insertionSort (· ≤ ·) _

theorem mem_acn_indices_lt (pheno : List (Nat × Rat)) (genoAcc : List Nat) (i : Nat)
    (hi : i ∈ acn_indices pheno genoAcc) : i < genoAcc.length := by
  rcases mem_acn_indices pheno genoAcc i hi with ⟨k, hk, rfl⟩
  exact List.indexOf_lt_length.2 (mem_acn_genotyped pheno genoAcc k hk).2

theorem K_acc_order_eq_of_same (pheno : List (Nat × Rat)) (genoAcc : List Nat)
    (hnd : genoAcc.Nodup) :
    K_acc_order pheno genoAcc genoAcc = Y_acc_order pheno genoAcc := by
  have hY := Y_acc_order_eq pheno genoAcc
  rw [K_acc_order, kin_indices, ← Y_acc_order, hY]
  have horder : acn_order pheno genoAcc =
      (acn_indices pheno genoAcc).map (fun i => genoAcc.getD i 0) := by
    rw [acn_order]
    exact filterMap_get?_eq_map_getD genoAcc 0 _ (mem_acn_indices_lt pheno genoAcc)
  have hback : (acn_order pheno genoAcc).map (fun acn => genoAcc.indexOf acn) =
      acn_indices pheno genoAcc := by
    rw [horder, List.map_map]
    have hpt : ∀ i ∈ acn_indices pheno genoAcc,
        ((fun acn => genoAcc.indexOf acn) ∘ fun i => genoAcc.getD i 0) i = id i := by
      intro i hi
      have hilt := mem_acn_indices_lt pheno genoAcc i hi
      simp only [Function.comp_apply, id_eq, List.getD_eq_getElem genoAcc 0 hilt]
      exact List.indexOf_getElem hnd i hilt
    rw [List.map_congr_left hpt, List.map_id]
  rw [hback]
  have hsorted := sorted_acn_indices pheno genoAcc
  rw [List.eq_of_perm_of_sorted (List.perm_insertionSort (· ≤ ·) _)
    (List.sorted_insertionSort (· ≤ ·) _) hsorted]
  rw [← acn_order, hY.symm]

/-! ### C1: alignment of Y, G and K (corrected) -/

/-- C1 counterexample: the claim as stated is false.  With phenotype rows for
accessions 1 and 2, genotype accessions `[1, 2]` and kinship accessions
`[2, 1]` (same set, different order), the prepared Y rows follow the genotype
order `[1, 2]` while the prepared K rows follow the kinship-file order
`[2, 1]`: the three matrices are not all arranged in the same accession
order. -/
theorem C1_counterexample :
    K_acc_order [(1, (70 : Rat)), (2, 80)] [1, 2] [2, 1] ≠
      Y_acc_order [(1, (70 : Rat)), (2, 80)] [1, 2] := by
  decide

/-- C1 (amended): after the preparation steps, Y and G are always reduced to
the same accession sequence (same set, same order, the genotype-file order of
the common accessions); K is reduced to the same accession *set* (a
permutation), but its rows/columns follow the kinship-file positional order,
which agrees with Y's and G's order when the kinship accession vector equals
the genotype accession vector (as it does for the matched 1001-genomes data
files used by the notebook). -/
theorem C1_prepared_alignment (pheno : List (Nat × Rat)) (genoAcc kinAcc : List Nat)
    (hkin : ∀ a ∈ Y_acc_order pheno genoAcc, a ∈ kinAcc)
    (hndG : genoAcc.Nodup) :
    Y_acc_order pheno genoAcc = G_acc_order pheno genoAcc ∧
      List.Perm (K_acc_order pheno genoAcc kinAcc) (Y_acc_order pheno genoAcc) ∧
      (kinAcc = genoAcc → K_acc_order pheno genoAcc kinAcc = Y_acc_order pheno genoAcc) := by
  refine ⟨?_, K_acc_order_perm pheno genoAcc kinAcc hkin, ?_⟩
  · rw [Y_acc_order_eq]; rfl
  · intro hsame
    subst hsame
    exact K_acc_order_eq_of_same pheno kinAcc hndG

/-- C1 witness: with matched genotype and kinship accession vectors `[1, 2]`,
all three matrices end up with accession order `[1, 2]`. -/
theorem C1_prepared_alignment_witness :
    ((∀ a ∈ Y_acc_order [(1, (70 : Rat)), (2, 80)] [1, 2], a ∈ [1, 2]) ∧
      ([1, 2] : List Nat).Nodup) ∧
    (Y_acc_order [(1, (70 : Rat)), (2, 80)] [1, 2] =
        G_acc_order [(1, (70 : Rat)), (2, 80)] [1, 2] ∧
      List.Perm (K_acc_order [(1, (70 : Rat)), (2, 80)] [1, 2] [1, 2])
        (Y_acc_order [(1, (70 : Rat)), (2, 80)] [1, 2]) ∧
      (([1, 2] : List Nat) = [1, 2] →
        K_acc_order [(1, (70 : Rat)), (2, 80)] [1, 2] [1, 2] =
          Y_acc_order [(1, (70 : Rat)), (2, 80)] [1, 2])) :=
  ⟨⟨by decide, by decide⟩,
    C1_prepared_alignment [(1, (70 : Rat)), (2, 80)] [1, 2] [1, 2] (by decide) (by decide)⟩

/-! ### C8: phenotype loading is row-order-irrelevant -/

theorem find?_key_perm (pheno pheno' : List (Nat × Rat)) (hperm : List.Perm pheno' pheno)
    (hnd : (pheno.map Prod.fst).Nodup) (k : Nat) :
    pheno'.find? (fun p => p.1 == k) = pheno.find? (fun p => p.1 == k) := by
  cases hfind : pheno.find? (fun p => p.1 == k) with
  | none =>
    rw [List.find?_eq_none] at hfind ⊢
    intro x hx
    exact hfind x (hperm.subset hx)
  | some p =>
    have hp : p ∈ pheno := List.mem_of_find?_eq_some hfind
    have hpk : p.1 = k := by
      have := List.find?_some hfind
      simpa [beq_iff_eq] using this
    have hsome : (pheno'.find? (fun q => q.1 == k)).isSome :=
      List.find?_isSome.2 ⟨p, hperm.mem_iff.2 hp, by simp [beq_iff_eq, hpk]⟩
    obtain ⟨q, hq⟩ := Option.isSome_iff_exists.1 hsome
    have hqmem : q ∈ pheno := hperm.subset (List.mem_of_find?_eq_some hq)
    have hqk : q.1 = k := by
      have := List.find?_some hq
      simpa [beq_iff_eq] using this
    rw [hq]
    exact congrArg some (List.inj_on_of_nodup_map hnd hqmem hp (hqk.trans hpk.symm))

theorem loc_perm (pheno pheno' : List (Nat × Rat)) (hperm : List.Perm pheno' pheno)
    (hnd : (pheno.map Prod.fst).Nodup) (ks : List Nat) :
    loc pheno' ks = loc pheno ks := by
  have hfun : (fun k => (pheno'.find? (fun p => p.1 == k)).map (fun p => (k, p.2))) =
      (fun k => (pheno.find? (fun p => p.1 == k)).map (fun p => (k, p.2))) :=
    funext (fun k => by rw [find?_key_perm pheno pheno' hperm hnd k])
  rw [loc, loc, hfun]

theorem find?_loc_not_mem (pheno : List (Nat × Rat)) (k : Nat) :
    ∀ ks : List Nat, k ∉ ks → (loc pheno ks).find? (fun q => q.1 == k) = none := by
  intro ks
  induction ks with
  | nil => intro _; rfl
  | cons k0 t ih =>
    intro hk
    have hk0 : k0 ≠ k := fun h => hk (h ▸ List.mem_cons_self k0 t)
    have hkt : k ∉ t := fun h => hk (List.mem_cons_of_mem k0 h)
    cases hf : pheno.find? (fun p => p.1 == k0) with
    | some p0 =>
      rw [loc_cons_found pheno k0 t p0 hf,
        List.find?_cons_of_neg _ (by simpa [beq_iff_eq] using hk0)]
      exact ih hkt
    | none =>
      rw [loc_cons_none pheno k0 t hf]
      exact ih hkt

theorem find?_loc_none (pheno : List (Nat × Rat)) (k : Nat)
    (hfind : pheno.find? (fun q => q.1 == k) = none) :
    ∀ ks : List Nat, (loc pheno ks).find? (fun q => q.1 == k) = none := by
  intro ks
  induction ks with
  | nil => rfl
  | cons k0 t ih =>
    cases hf : pheno.find? (fun p => p.1 == k0) with
    | some p0 =>
      have hk0 : k0 ≠ k := by
        intro h
        subst h
        rw [hfind] at hf
        cases hf
      rw [loc_cons_found pheno k0 t p0 hf,
        List.find?_cons_of_neg _ (by simpa [beq_iff_eq] using hk0)]
      exact ih
    | none =>
      rw [loc_cons_none pheno k0 t hf]
      exact ih

theorem find?_loc_mem (pheno : List (Nat × Rat)) (k : Nat) (p : Nat × Rat)
    (hfind : pheno.find? (fun q => q.1 == k) = some p) :
    ∀ ks : List Nat, k ∈ ks → (loc pheno ks).find? (fun q => q.1 == k) = some (k, p.2) := by
  intro ks
  induction ks with
  | nil => intro h; exact absurd h (List.not_mem_nil k)
  | cons k0 t ih =>
    intro hk
    by_cases hk0 : k0 = k
    · subst hk0
      rw [loc_cons_found pheno k0 t p hfind,
        List.find?_cons_of_pos _ (by simp)]
    · have hkt : k ∈ t := by
        rcases List.mem_cons.1 hk with h | h
        · exact absurd h.symm hk0
        · exact h
      cases hf : pheno.find? (fun q => q.1 == k0) with
      | some p0 =>
        rw [loc_cons_found pheno k0 t p0 hf,
          List.find?_cons_of_neg _ (by simpa [beq_iff_eq] using hk0)]
        exact ih hkt
      | none =>
        rw [loc_cons_none pheno k0 t hf]
        exact ih hkt

theorem find?_loc_eq_of_perm (pheno : List (Nat × Rat)) (ks ks' : List Nat)
    (hperm : List.Perm ks' ks) (k : Nat) :
    (loc pheno ks').find? (fun q => q.1 == k) =
      (loc pheno ks).find? (fun q => q.1 == k) := by
  by_cases hmem : k ∈ ks
  · have hmem' : k ∈ ks' := hperm.mem_iff.2 hmem
    cases hfind : pheno.find? (fun q => q.1 == k) with
    | some p =>
      rw [find?_loc_mem pheno k p hfind ks' hmem', find?_loc_mem pheno k p hfind ks hmem]
    | none =>
      rw [find?_loc_none pheno k hfind ks', find?_loc_none pheno k hfind ks]
  · have hmem' : k ∉ ks' := fun h => hmem (hperm.subset h)
    rw [find?_loc_not_mem pheno k ks' hmem', find?_loc_not_mem pheno k ks hmem]

theorem pheno_prepared_perm (pheno pheno' : List (Nat × Rat)) (genoAcc : List Nat)
    (hperm : List.Perm pheno' pheno) (hnd : (pheno.map Prod.fst).Nodup) :
    pheno_prepared pheno' genoAcc = pheno_prepared pheno genoAcc := by
  have hgenoperm : List.Perm (acn_genotyped pheno' genoAcc) (acn_genotyped pheno genoAcc) :=
    (hperm.map Prod.fst).filter _
  have hidx : acn_indices pheno' genoAcc = acn_indices pheno genoAcc := by
    rw [acn_indices, acn_indices, pheno_geno_keys, pheno_geno_keys]
    exact List.eq_of_perm_of_sorted
      ((List.perm_insertionSort (· ≤ ·) _).trans
        ((hgenoperm.map _).trans (List.perm_insertionSort (· ≤ ·) _).symm))
      (List.sorted_insertionSort (· ≤ ·) _) (List.sorted_insertionSort (· ≤ ·) _)
  have horder : acn_order pheno' genoAcc = acn_order pheno genoAcc := by
    rw [acn_order, acn_order, hidx]
  rw [pheno_prepared, pheno_prepared, horder, pheno_geno, pheno_geno,
    loc_perm pheno pheno' hperm hnd]
  have hfun : (fun k => ((loc pheno (acn_genotyped pheno' genoAcc)).find?
        (fun p => p.1 == k)).map (fun p => (k, p.2))) =
      (fun k => ((loc pheno (acn_genotyped pheno genoAcc)).find?
        (fun p => p.1 == k)).map (fun p => (k, p.2))) :=
    funext (fun k => by
      rw [find?_loc_eq_of_perm pheno (acn_genotyped pheno genoAcc)
        (acn_genotyped pheno' genoAcc) hgenoperm k])
  exact congrArg (fun f => List.filterMap f (acn_order pheno genoAcc)) hfun

/-- C8: loading the phenotype is order-irrelevant.  For every phenotype table
with unique accession keys and every permutation of its rows, the
load-and-align steps of sections 2a/3a produce the same phenotype matrix `Y`:
the same values in the same fixed accession order, the order determined by the
genotype data. -/
theorem C8_pheno_order_irrelevant (pheno pheno' : List (Nat × Rat)) (genoAcc : List Nat)
    (hperm : List.Perm pheno' pheno) (hnd : (pheno.map Prod.fst).Nodup) :
    Y pheno' genoAcc = Y pheno genoAcc ∧
      Y_acc_order pheno' genoAcc = Y_acc_order pheno genoAcc := by
  have h := pheno_prepared_perm pheno pheno' genoAcc hperm hnd
  rw [Y, Y, Y_acc_order, Y_acc_order, h]
  exact ⟨rfl, rfl⟩

/-- C8 witness: swapping the two rows of a concrete phenotype table leaves
the prepared Y (values and accession order) unchanged. -/
theorem C8_pheno_order_irrelevant_witness :
    (List.Perm [((2 : Nat), (80 : Rat)), (1, 70)] [((1 : Nat), (70 : Rat)), (2, 80)] ∧
      (([((1 : Nat), (70 : Rat)), (2, 80)]).map Prod.fst).Nodup) ∧
    (Y [((2 : Nat), (80 : Rat)), (1, 70)] [1, 2] = Y [((1 : Nat), (70 : Rat)), (2, 80)] [1, 2] ∧
      Y_acc_order [((2 : Nat), (80 : Rat)), (1, 70)] [1, 2] =
        Y_acc_order [((1 : Nat), (70 : Rat)), (2, 80)] [1, 2]) :=
  ⟨⟨List.Perm.swap ((1 : Nat), (70 : Rat)) ((2 : Nat), (80 : Rat)) [], by decide⟩,
    C8_pheno_order_irrelevant [((1 : Nat), (70 : Rat)), (2, 80)]
      [((2 : Nat), (80 : Rat)), (1, 70)] [1, 2]
      (List.Perm.swap ((1 : Nat), (70 : Rat)) ((2 : Nat), (80 : Rat)) []) (by decide)⟩

end GWAS
